import Mathlib

/-!
Shallow embedding of `src/linux-desktop/vision.py` (repository gedigi/peekaboox).

Python strings are sequences of Unicode code points, so they are modelled as
`List Char`.  The remote network call and the standard-library JSON parser
(`json.loads`) are not repository code; the parser is abstracted as an explicit
function parameter `loads` (restricted to replies that decode to JSON objects,
the only case the verified claims speak about), and the serializer
(`json.dumps`) is modelled concretely below.
-/

/-- Convert a Lean string literal to the `List Char` representation used
throughout this development. -/
def str (s : String) : List Char := s.data

/-- The backtick character, written by code point to keep source lines clean. -/
def btick : Char := Char.ofNat 96

/-- The opening-brace character. -/
def lbrace : Char := Char.ofNat 123

/-- The closing-brace character. -/
def rbrace : Char := Char.ofNat 125

/-- The single-quote character. -/
def squote : Char := Char.ofNat 39

/-- Python `s.split(sep)` for a one-character separator: splits on every
occurrence, never drops empty pieces, and returns one piece even for the
empty string. -/
def splitOnChar (sep : Char) : List Char → List (List Char)
  | [] => [[]]
  | c :: cs =>
      if c = sep then [] :: splitOnChar sep cs
      else (c :: (splitOnChar sep cs).headD []) :: (splitOnChar sep cs).tail

/-- Python `response_text.split("\n")` (vision.py line 108). -/
def splitLines : List Char → List (List Char) := splitOnChar '\n'

/-- Python `"\n".join(lines)` (vision.py line 120). -/
def joinLines : List (List Char) → List Char
  | [] => []
  | [l] => l
  | l :: ls => l ++ ('\n' :: joinLines ls)

/-- Python `line.startswith("\x60\x60\x60")`: the first three characters are
backticks (vision.py lines 107, 113, 116). -/
def startsFence (s : List Char) : Bool := decide (s.take 3 = [btick, btick, btick])

/-- The loop of vision.py lines 110-119: walk the lines with an `inside`
flag; a fence line seen outside turns the flag on (`continue`), a fence line
seen inside stops the loop (`break`), and ordinary lines seen inside are
collected. -/
def collectFenced : List (List Char) → Bool → List (List Char)
  | [], _ => []
  | l :: ls, inside =>
      if startsFence l && !inside then collectFenced ls true
      else if startsFence l && inside then []
      else if inside then l :: collectFenced ls inside
      else collectFenced ls inside

/-- Vision.py lines 107-120: if the reply starts with a backtick fence,
split it into lines, run the collection loop, and rejoin; otherwise the
reply is left untouched. -/
def stripFence (s : List Char) : List Char :=
  if startsFence s then joinLines (collectFenced (splitLines s) false) else s

/-- Python `str.isspace` on the ASCII whitespace characters (the ones the
program's replies can contain); used to model `str.strip()`. -/
def isPySpace (c : Char) : Bool :=
  c = ' ' || c = '\t' || c = '\n' || c = '\r' || c = Char.ofNat 11 || c = Char.ofNat 12

/-- Python `s.strip()` (vision.py lines 104 and 165): drop whitespace from
both ends. -/
def pyStrip (s : List Char) : List Char :=
  ((s.dropWhile isPySpace).reverse.dropWhile isPySpace).reverse

/-- Values produced by decoding a JSON reply (Python objects as returned by
`json.loads`); numbers are modelled as integers, which covers every numeric
field this program's contract mentions. -/
inductive JVal where
  | null
  | bool (b : Bool)
  | num (n : Int)
  | str (s : List Char)
  | arr (elems : List JVal)
  | obj (fields : List (List Char × JVal))

/-- Python dictionary lookup on the association-list model of a decoded JSON
object.  `json.loads` produces dictionaries with unique keys, so first-match
lookup agrees with Python lookup on every object a theorem below receives. -/
def lookupKey (fields : List (List Char × JVal)) (k : List Char) : Option JVal :=
  match fields with
  | [] => none
  | (k2, v) :: fs => if k2 = k then some v else lookupKey fs k

/-- Python `k in result` on a decoded JSON object (vision.py line 125). -/
def hasKey (fields : List (List Char × JVal)) (k : List Char) : Bool :=
  (lookupKey fields k).isSome

/-- Python `result.get(k, default)` (vision.py lines 204-207). -/
def dictGet (fields : List (List Char × JVal)) (k : List Char) (default : JVal) : JVal :=
  (lookupKey fields k).getD default

/-- Python truthiness of a decoded JSON value, as used by
`if result.get("found", False)` (vision.py line 204). -/
def truthy : JVal → Bool
  | .null => false
  | .bool b => b
  | .num n => n != 0
  | .str s => !s.isEmpty
  | .arr es => !es.isEmpty
  | .obj fs => !fs.isEmpty

/-- Escaping of one character inside a JSON string literal; models the part
of Python `json.dumps` string escaping that this program's data can reach
(quote, backslash and the common control characters). -/
def escChar (c : Char) : List Char :=
  if c = '"' then ['\\', '"']
  else if c = '\\' then ['\\', '\\']
  else if c = '\n' then ['\\', 'n']
  else if c = '\t' then ['\\', 't']
  else if c = '\r' then ['\\', 'r']
  else [c]

/-- JSON string-literal escaping, character by character. -/
def escape (s : List Char) : List Char := (s.map escChar).flatten

mutual

/-- Model of Python `json.dumps(v)` with the default separators: item
separator comma-space, key separator colon-space, no added newlines. -/
def dumps : JVal → List Char
  | .null => str "null"
  | .bool true => str "true"
  | .bool false => str "false"
  | .num n => (toString n).data
  | .str s => '"' :: (escape s ++ ['"'])
  | .arr es => '[' :: (dumpsArr es ++ [']'])
  | .obj fs => lbrace :: (dumpsObj fs ++ [rbrace])

/-- Elements of a JSON array joined by comma-space. -/
def dumpsArr : List JVal → List Char
  | [] => []
  | [v] => dumps v
  | v :: vs => dumps v ++ (str ", " ++ dumpsArr vs)

/-- Fields of a JSON object joined by comma-space, each rendered as
quoted key, colon-space, value. -/
def dumpsObj : List (List Char × JVal) → List Char
  | [] => []
  | [(k, v)] => '"' :: (escape k ++ (str "\": " ++ dumps v))
  | (k, v) :: fs => '"' :: (escape k ++ (str "\": " ++ (dumps v ++ (str ", " ++ dumpsObj fs))))

end

/-- Two-space indentation of the given nesting depth. -/
def nspaces : Nat → List Char
  | 0 => []
  | n + 1 => ' ' :: nspaces n

mutual

/-- Model of Python `json.dumps(v, indent=2)` at nesting level `lvl`:
containers open with a newline, indent every item by two spaces per level,
and close on a fresh line at the container's own level; empty containers
are rendered inline. -/
def dumpsInd : Nat → JVal → List Char
  | _, .null => str "null"
  | _, .bool true => str "true"
  | _, .bool false => str "false"
  | _, .num n => (toString n).data
  | _, .str s => '"' :: (escape s ++ ['"'])
  | _, .arr [] => str "[]"
  | lvl, .arr (e :: es) =>
      '[' :: ('\n' :: (dumpsIndArr lvl (e :: es) ++ ('\n' :: (nspaces (2 * lvl) ++ [']']))))
  | _, .obj [] => [lbrace, rbrace]
  | lvl, .obj (f :: fs) =>
      lbrace :: ('\n' :: (dumpsIndObj lvl (f :: fs) ++ ('\n' :: (nspaces (2 * lvl) ++ [rbrace]))))

/-- Indented rendering of the elements of a non-empty JSON array. -/
def dumpsIndArr (lvl : Nat) : List JVal → List Char
  | [] => []
  | [v] => nspaces (2 * (lvl + 1)) ++ dumpsInd (lvl + 1) v
  | v :: vs =>
      nspaces (2 * (lvl + 1)) ++ (dumpsInd (lvl + 1) v ++ (',' :: ('\n' :: dumpsIndArr lvl vs)))

/-- Indented rendering of the fields of a non-empty JSON object. -/
def dumpsIndObj (lvl : Nat) : List (List Char × JVal) → List Char
  | [] => []
  | [(k, v)] =>
      nspaces (2 * (lvl + 1)) ++ ('"' :: (escape k ++ (str "\": " ++ dumpsInd (lvl + 1) v)))
  | (k, v) :: fs =>
      nspaces (2 * (lvl + 1)) ++
        ('"' :: (escape k ++ (str "\": " ++
          (dumpsInd (lvl + 1) v ++ (',' :: ('\n' :: dumpsIndObj lvl fs))))))

end

/-- Python `json.dumps(v, indent=2)`. -/
def dumpsIndent (v : JVal) : List Char := dumpsInd 0 v

/-- Vision.py lines 124-127: inject the queried element description under the
key `element` when the decoded reply lacks that key; Python dictionary
assignment appends the new key at the end. -/
def injectElement (result : List (List Char × JVal)) (desc : List Char) :
    List (List Char × JVal) :=
  if hasKey result (str "element") then result
  else result ++ [(str "element", JVal.str desc)]

/-- The decode phase of `find_element` (vision.py lines 104-128): strip the
raw reply, strip a markdown fence when present, hand the text to the JSON
parser `loads` (abstracting Python `json.loads`, restricted to object
results), and inject the element description on success.  A parse failure
propagates as the `JSONDecodeError` message. -/
def find_element_decode
    (loads : List Char → Except (List Char) (List (List Char × JVal)))
    (raw desc : List Char) : Except (List Char) (List (List Char × JVal)) :=
  match loads (stripFence (pyStrip raw)) with
  | .error e => .error e
  | .ok result => .ok (injectElement result desc)

/-- The decode phase of `describe_screen` (vision.py line 165): the trimmed
raw text reply. -/
def describe_screen_decode (raw : List Char) : List Char := pyStrip raw

/-- What one invocation prints and the process exit code. -/
structure Output where
  lines : List (List Char)
  exitCode : Nat

/-- Python `f-string` rendering of a decoded JSON value (`str(v)` for the
scalar shapes; containers fall back to the compact JSON rendering, a
benign approximation no verified claim depends on). -/
def pyStr : JVal → List Char
  | .null => str "None"
  | .bool true => str "True"
  | .bool false => str "False"
  | .num n => (toString n).data
  | .str s => s
  | .arr es => dumps (.arr es)
  | .obj fs => dumps (.obj fs)

/-- The error object printed when the reply fails to parse as JSON
(vision.py lines 229-231). -/
def jsonFailObj (msg : List Char) : List (List Char × JVal) :=
  [(str "found", JVal.bool false), (str "error", JVal.str msg)]

/-- The find branch of `main` (vision.py lines 198-212 and 229-232), applied
to the decoded reply: a parse failure prints the wrapped error object and
exits 1; otherwise `--json` prints the pretty result, and text mode prints
either the three found lines plus the raw JSON line or the not-found line
plus the raw JSON line, exiting 0. -/
def mainFind (jsonFlag : Bool) (desc : List Char)
    (decoded : Except (List Char) (List (List Char × JVal))) : Output :=
  match decoded with
  | .error e =>
      ⟨[dumps (JVal.obj (jsonFailObj (str "Failed to parse vision response as JSON: " ++ e)))], 1⟩
  | .ok result =>
      if jsonFlag then ⟨[dumpsIndent (JVal.obj result)], 0⟩
      else if truthy (dictGet result (str "found") (JVal.bool false)) then
        ⟨[str "Found: " ++ pyStr (dictGet result (str "description") (JVal.str desc)),
          str "Coordinates: (" ++ (pyStr (dictGet result (str "x") (JVal.str (str "?"))) ++
            (str ", " ++ (pyStr (dictGet result (str "y") (JVal.str (str "?"))) ++ str ")"))),
          str "Confidence: " ++ pyStr (dictGet result (str "confidence") (JVal.str (str "unknown"))),
          dumps (JVal.obj result)], 0⟩
      else
        ⟨[str "Not found: " ++ desc, dumps (JVal.obj result)], 0⟩

/-- The find branch of `main` composed with the decode phase of
`find_element`. -/
def mainFindRun (loads : List Char → Except (List Char) (List (List Char × JVal)))
    (jsonFlag : Bool) (raw desc : List Char) : Output :=
  mainFind jsonFlag desc (find_element_decode loads raw desc)

/-- The describe branch of `main` (vision.py lines 214-223): `--json` wraps
the trimmed text in a success object pretty-printed with indent 2, plain
mode prints the text alone; both exit 0. -/
def mainDescribe (jsonFlag : Bool) (raw : List Char) : Output :=
  if jsonFlag then
    ⟨[dumpsIndent (JVal.obj
        [(str "success", JVal.bool true),
         (str "description", JVal.str (describe_screen_decode raw)),
         (str "error", JVal.null)])], 0⟩
  else ⟨[describe_screen_decode raw], 0⟩

/-- Outcome of the validation phase of `main`: either an early error print
plus exit, or the mode that will run (and only then touch the network). -/
inductive MainStage where
  | earlyExit (out : List (List Char)) (code : Nat)
  | runFind (desc : List Char)
  | runDescribe

/-- Truthiness of an optional command-line string (`args.find`): absent and
empty are both falsy. -/
def argTruthy : Option (List Char) → Bool
  | none => false
  | some s => !s.isEmpty

/-- The validation phase of `main` (vision.py lines 180-189 and 198-214):
a missing image file or a missing mode flag prints a single JSON error line
and exits 1 before any mode handling; otherwise the find mode runs when
`--find` was given a truthy value, else the describe mode. -/
def mainValidate (imageExists : Bool) (imagePath : List Char)
    (findArg : Option (List Char)) (describeFlag : Bool) : MainStage :=
  if !imageExists then
    .earlyExit
      [dumps (JVal.obj
        [(str "success", JVal.bool false),
         (str "error", JVal.str (str "Image file not found: " ++ imagePath))])] 1
  else if !argTruthy findArg && !describeFlag then
    .earlyExit
      [dumps (JVal.obj
        [(str "success", JVal.bool false),
         (str "error", JVal.str
           (str "Specify --find " ++ ([squote] ++ (str "element" ++ ([squote] ++ str " or --describe")))))])] 1
  else if argTruthy findArg then .runFind (findArg.getD [])
  else .runDescribe

/-- Python `str.lower()` (ASCII case folding, which covers file
extensions). -/
def pyLower (s : List Char) : List Char := s.map Char.toLower

/-- The final path component, as `pathlib.PurePosixPath(p).name`: split on
slashes, discard empty and single-dot components, take the last one. -/
def pyName (p : List Char) : List Char :=
  ((splitOnChar '/' p).filter (fun part => !part.isEmpty && part != ['.'])).getLastD []

/-- Index of the last dot in a character list, when any. -/
def lastDotIdx : List Char → Option Nat
  | [] => none
  | c :: cs =>
      match lastDotIdx cs with
      | some i => some (i + 1)
      | none => if c = '.' then some 0 else none

/-- Python `pathlib.Path(p).suffix`: the part of the name from its last dot
on, provided that dot is neither the first nor the last character of the
name. -/
def pySuffix (p : List Char) : List Char :=
  match lastDotIdx (pyName p) with
  | some i => if 0 < i ∧ i + 1 < (pyName p).length then (pyName p).drop i else []
  | none => []

/-- The extension table of `get_media_type` (vision.py lines 51-57), in
source order. -/
def media_types_table : List (List Char × List Char) :=
  [(str ".png", str "image/png"),
   (str ".jpg", str "image/jpeg"),
   (str ".jpeg", str "image/jpeg"),
   (str ".gif", str "image/gif"),
   (str ".webp", str "image/webp")]

/-- First-match lookup in the extension table (Python `dict.get` on a
literal dictionary with distinct keys). -/
def lookupMedia : List (List Char × List Char) → List Char → Option (List Char)
  | [], _ => none
  | (k2, v) :: fs, k => if k2 = k then some v else lookupMedia fs k

/-- Vision.py lines 48-58: lower-case the path's suffix and look it up,
defaulting to `image/png`. -/
def get_media_type (image_path : List Char) : List Char :=
  (lookupMedia media_types_table (pyLower (pySuffix image_path))).getD (str "image/png")

/-- Stated from the claim text of C5: the media type the specification
promises for each extension, unrecognized ones defaulting to PNG. -/
def mediaTypeSpec (image_path : List Char) : List Char :=
  if pyLower (pySuffix image_path) = str ".jpg" ∨ pyLower (pySuffix image_path) = str ".jpeg" then
    str "image/jpeg"
  else if pyLower (pySuffix image_path) = str ".gif" then str "image/gif"
  else if pyLower (pySuffix image_path) = str ".webp" then str "image/webp"
  else str "image/png"

/-- A closing fence exists: some line after the first one starts with a
triple backtick. -/
def hasClosingFence (s : List Char) : Bool :=
  ((splitLines s).tail).any (fun l => startsFence l)

/-- Stated from the claim text of C1: the lines strictly between the first
fence-marker line and the last fence-marker line of the reply, rejoined. -/
def betweenFirstLastExtract (s : List Char) : List Char :=
  joinLines (((splitLines s).drop ((splitLines s).findIdx (fun l => startsFence l) + 1)).take
    ((splitLines s).length - 1 - (splitLines s).reverse.findIdx (fun l => startsFence l) -
      ((splitLines s).findIdx (fun l => startsFence l) + 1)))

/-- The extraction the code actually performs on a fenced reply: the lines
strictly between the opening fence line and the first subsequent line that
starts with a fence, rejoined. -/
def firstClosingExtract (s : List Char) : List Char :=
  joinLines (((splitLines s).tail).takeWhile (fun l => !startsFence l))

/-! Lemmas about the fence-stripping loop. -/

/-- Once the loop is inside the fence, it collects exactly the lines up to
the first closing fence. -/
theorem collectFenced_true_eq_takeWhile (ls : List (List Char)) :
    collectFenced ls true = ls.takeWhile (fun l => !startsFence l) := by
  induction ls with
  | nil => rfl
  | cons l ls ih =>
      by_cases h : startsFence l = true
      · simp [collectFenced, h, List.takeWhile_cons]
      · have h2 : startsFence l = false := by simpa using h
        simp [collectFenced, h2, List.takeWhile_cons, ih]

/-- A reply that starts with a fence has three backticks in front. -/
theorem startsFence_shape (s : List Char) (h : startsFence s = true) :
    s = btick :: btick :: btick :: s.drop 3 := by
  have h3 : s.take 3 = [btick, btick, btick] := by simpa [startsFence] using h
  conv_lhs => rw [← List.take_append_drop 3 s, h3]
  rfl

/-- Splitting a reply that opens with three backticks puts them on the first
line. -/
theorem splitLines_fenced (r : List Char) :
    splitLines (btick :: btick :: btick :: r) =
      (btick :: btick :: btick :: (splitLines r).headD []) :: (splitLines r).tail := by
  simp +decide [splitLines, splitOnChar, btick]

/-- An opening fence line seen with the flag still off flips the flag. -/
theorem collectFenced_cons_fence (ls : List (List Char)) (a : List Char)
    (ha : startsFence a = true) : collectFenced (a :: ls) false = collectFenced ls true := by
  simp [collectFenced, ha]

/-- On a reply that starts with a fence, the stripping step keeps exactly
the lines between the opening fence line and the first subsequent fence
line. -/
theorem stripFence_eq_firstClosing (s : List Char) (h : startsFence s = true) :
    stripFence s = firstClosingExtract s := by
  have hs := startsFence_shape s h
  rw [stripFence, if_pos h, firstClosingExtract, hs, splitLines_fenced]
  rw [collectFenced_cons_fence _ _ (by rfl), List.tail_cons, collectFenced_true_eq_takeWhile]

/-- Lines collected by the loop never start with a fence (a fence line
either flips the flag or ends the loop). -/
theorem collectFenced_not_fence (ls : List (List Char)) (inside : Bool) :
    ∀ l ∈ collectFenced ls inside, startsFence l = false := by
  induction ls generalizing inside with
  | nil => simp [collectFenced]
  | cons a ls ih =>
      intro l hl
      by_cases ha : startsFence a = true
      · cases inside with
        | false =>
            simp [collectFenced, ha] at hl
            exact ih true l hl
        | true => simp [collectFenced, ha] at hl
      · have ha2 : startsFence a = false := by simpa using ha
        cases inside with
        | false =>
            simp [collectFenced, ha2] at hl
            exact ih false l hl
        | true =>
            simp [collectFenced, ha2] at hl
            rcases hl with rfl | hl
            · exact ha2
            · exact ih true l hl

/-- Appending a newline and anything else to a line that does not start
with a fence cannot create a fence start. -/
theorem startsFence_append_newline (a y : List Char) (h : startsFence a = false) :
    startsFence (a ++ ('\n' :: y)) = false := by
  rcases a with _ | ⟨c1, _ | ⟨c2, _ | ⟨c3, t⟩⟩⟩
  · simp +decide [startsFence, List.take, btick]
  · simp +decide [startsFence, List.take, btick]
  · simp +decide [startsFence, List.take, btick]
  · simpa [startsFence, List.take] using h

/-- Joining loop output never starts with a fence. -/
theorem joinLines_not_fence : ∀ out : List (List Char),
    (∀ l ∈ out, startsFence l = false) → startsFence (joinLines out) = false
  | [], _ => rfl
  | [a], h => by simpa [joinLines] using h a (by simp)
  | a :: b :: rest, h => by
      have hj : joinLines (a :: b :: rest) = a ++ ('\n' :: joinLines (b :: rest)) := rfl
      rw [hj]
      exact startsFence_append_newline a _ (h a (by simp))

/-- A reply that does not start with a fence is left untouched. -/
theorem stripFence_of_not_fence (t : List Char) (h : startsFence t = false) :
    stripFence t = t := by
  simp [stripFence, h]

/-- A predicate true of every element keeps `takeWhile` from dropping
anything. -/
theorem takeWhile_of_all {α : Type} (p : α → Bool) (l : List α) (h : ∀ x ∈ l, p x = true) :
    l.takeWhile p = l := by
  induction l with
  | nil => rfl
  | cons a l ih =>
      simp only [List.takeWhile_cons, h a (by simp), if_true]
      rw [ih (fun x hx => h x (by simp [hx]))]

/-! Lemmas about the decoded-object model and the serializer. -/

/-- Appending a missing key to the end of a decoded object makes it
retrievable. -/
theorem lookupKey_append_self (fs : List (List Char × JVal)) (k : List Char) (v : JVal)
    (h : lookupKey fs k = none) : lookupKey (fs ++ [(k, v)]) k = some v := by
  induction fs with
  | nil => simp [lookupKey]
  | cons p fs ih =>
      obtain ⟨k2, w⟩ := p
      by_cases hk : k2 = k
      · simp [lookupKey, hk] at h
      · simp only [lookupKey, List.cons_append, if_neg hk] at h ⊢
        exact ih h

/-- Appending a pair under a different key leaves every other lookup
unchanged. -/
theorem lookupKey_append_ne (fs : List (List Char × JVal)) (k k2 : List Char) (v : JVal)
    (h : k2 ≠ k) : lookupKey (fs ++ [(k2, v)]) k = lookupKey fs k := by
  induction fs with
  | nil => simp [lookupKey, h]
  | cons p fs ih =>
      obtain ⟨k3, w⟩ := p
      by_cases hk : k3 = k
      · simp [lookupKey, hk]
      · simp [lookupKey, hk, ih]

/-- One escaped character never contains a newline. -/
theorem escChar_no_newline (c : Char) : '\n' ∉ escChar c := by
  rw [escChar]
  split_ifs with h1 h2 h3 h4 h5
  · decide
  · decide
  · decide
  · decide
  · decide
  · intro hc
    rw [List.mem_singleton] at hc
    exact h3 hc.symm

/-- An escaped JSON string never contains a newline. -/
theorem escape_no_newline (s : List Char) : '\n' ∉ escape s := by
  induction s with
  | nil => simp [escape]
  | cons c s ih =>
      simp only [escape, List.map_cons, List.flatten_cons] at ih ⊢
      intro hm
      rcases List.mem_append.mp hm with hm | hm
      · exact escChar_no_newline c hm
      · exact ih hm

/-- The compact rendering of the parse-failure object stays on one line,
whatever the wrapped message. -/
theorem dumps_jsonFail_no_newline (msg : List Char) :
    '\n' ∉ dumps (JVal.obj (jsonFailObj msg)) := by
  have h1 := escape_no_newline msg
  have e1 : escape (str "found") = str "found" := by decide
  have e2 : escape (str "error") = str "error" := by decide
  simp +decide [jsonFailObj, dumps, dumpsObj, str, lbrace, rbrace, e1, e2, h1]

/-! The verified claims. -/

/-- Claim C1, counterexample: on a reply with three fence-marker lines the
stripping step of find_element keeps only the text up to the first closing
fence, not the text between the first and the last fence markers, so the
claim as stated fails while both of its hypotheses hold. -/
theorem stripFence_not_between_first_and_last :
    startsFence (str "```\na\n```\nb\n```") = true ∧
    hasClosingFence (str "```\na\n```\nb\n```") = true ∧
    stripFence (str "```\na\n```\nb\n```") ≠
      betweenFirstLastExtract (str "```\na\n```\nb\n```") := by
  decide

/-- Claim C1 (amended): for every model reply text that begins with a
triple-backtick fence line (with or without a language tag on that opening
line) and contains a closing fence, the fence-stripping step of
find_element extracts exactly the text between the first fence marker and
the first subsequent closing fence line of the reply. -/
theorem stripFence_extracts_to_first_closing (s : List Char)
    (h1 : startsFence s = true) (h2 : hasClosingFence s = true) :
    stripFence s = firstClosingExtract s :=
  stripFence_eq_firstClosing s h1

/-- Witness for the amended C1 theorem at a concrete fenced reply with a
language tag. -/
theorem stripFence_extracts_to_first_closing_witness :
    stripFence (str "```json\n\x7b\"found\": true\x7d\n```") =
      firstClosingExtract (str "```json\n\x7b\"found\": true\x7d\n```") :=
  stripFence_extracts_to_first_closing _ (by decide) (by decide)

/-- Claim C7: the fence-stripping transformation is idempotent — applying
it twice yields the same result as applying it once, for every reply
string. -/
theorem stripFence_idempotent (s : List Char) :
    stripFence (stripFence s) = stripFence s := by
  by_cases h : startsFence s = true
  · apply stripFence_of_not_fence
    rw [stripFence, if_pos h]
    exact joinLines_not_fence _ (fun l hl => collectFenced_not_fence _ _ l hl)
  · have h2 : startsFence s = false := by simpa using h
    rw [stripFence_of_not_fence s h2, stripFence_of_not_fence s h2]

/-- Claim C10: on a reply that begins with a fence line but contains no
closing fence line, the stripping step (total by construction, like the
Python loop, which simply exhausts its lines) yields all lines after the
opening fence line, rejoined with newlines. -/
theorem stripFence_no_closing_keeps_rest (s : List Char)
    (h1 : startsFence s = true)
    (h2 : ((splitLines s).tail).all (fun l => !startsFence l) = true) :
    stripFence s = joinLines ((splitLines s).tail) := by
  rw [stripFence_eq_firstClosing s h1, firstClosingExtract]
  congr 1
  apply takeWhile_of_all
  intro x hx
  exact List.all_eq_true.mp h2 x hx

/-- Witness for the C10 theorem at a concrete unterminated fenced reply. -/
theorem stripFence_no_closing_keeps_rest_witness :
    stripFence (str "```json\n\x7b\"a\": 1") =
      joinLines ((splitLines (str "```json\n\x7b\"a\": 1")).tail) :=
  stripFence_no_closing_keeps_rest _ (by decide) (by decide)

/-- Claim C2: when the fence-stripped remote reply parses as a JSON object,
the decode phase of find_element returns a result whose element field
equals the reply's own element value when the reply supplied one, and the
input element description otherwise. -/
theorem find_element_element_field
    (loads : List Char → Except (List Char) (List (List Char × JVal)))
    (raw desc : List Char) (result : List (List Char × JVal))
    (h : loads (stripFence (pyStrip raw)) = .ok result) :
    ∃ result2, find_element_decode loads raw desc = .ok result2 ∧
      lookupKey result2 (str "element") =
        some ((lookupKey result (str "element")).getD (JVal.str desc)) := by
  refine ⟨injectElement result desc, by rw [find_element_decode, h], ?_⟩
  rw [injectElement]
  by_cases hk : hasKey result (str "element") = true
  · rw [if_pos hk]
    obtain ⟨v, hv⟩ := Option.isSome_iff_exists.mp (by simpa [hasKey] using hk)
    simp [hv]
  · have hn : lookupKey result (str "element") = none :=
      Option.not_isSome_iff_eq_none.mp (by simpa [hasKey] using hk)
    rw [if_neg hk, lookupKey_append_self _ _ _ hn, hn]
    rfl

/-- Witness for the C2 theorem: the reply object lacks an element field and
the description is injected. -/
theorem find_element_element_field_witness :
    ∃ result2,
      find_element_decode (fun _ => .ok [(str "found", JVal.bool true)])
          (str "r") (str "btn") = .ok result2 ∧
      lookupKey result2 (str "element") =
        some ((lookupKey [(str "found", JVal.bool true)] (str "element")).getD
          (JVal.str (str "btn"))) :=
  find_element_element_field _ _ _ _ rfl

/-- Claim C9: the element-injection step changes no field other than
possibly adding element — every key present in the parsed object keeps its
parsed value, every key other than element (x, y and confidence among
them) looks up exactly as in the parsed object (so no default is
synthesized for an absent field), and a parsed object that already has an
element field is returned unchanged. -/
theorem injectElement_frame (result : List (List Char × JVal)) (desc : List Char) :
    (∀ k v, lookupKey result k = some v → lookupKey (injectElement result desc) k = some v) ∧
    (∀ k, k ≠ str "element" → lookupKey (injectElement result desc) k = lookupKey result k) ∧
    (hasKey result (str "element") = true → injectElement result desc = result) := by
  refine ⟨?_, ?_, ?_⟩
  · intro k v hv
    rw [injectElement]
    by_cases hk : hasKey result (str "element") = true
    · rw [if_pos hk]; exact hv
    · rw [if_neg hk]
      by_cases hke : k = str "element"
      · have hn : lookupKey result (str "element") = none :=
          Option.not_isSome_iff_eq_none.mp (by simpa [hasKey] using hk)
        rw [hke, hn] at hv
        cases hv
      · rw [lookupKey_append_ne _ _ _ _ (fun hc => hke hc.symm)]
        exact hv
  · intro k hke
    rw [injectElement]
    by_cases hk : hasKey result (str "element") = true
    · rw [if_pos hk]
    · rw [if_neg hk, lookupKey_append_ne _ _ _ _ (fun hc => hke hc.symm)]
  · intro hk
    rw [injectElement, if_pos hk]

/-- Witness for the C9 theorem: a present key keeps its value and an absent
key other than element stays as it was. -/
theorem injectElement_frame_witness :
    lookupKey (injectElement [(str "found", JVal.bool true)] (str "btn")) (str "found") =
      some (JVal.bool true) ∧
    lookupKey (injectElement [(str "found", JVal.bool true)] (str "btn")) (str "x") =
      lookupKey [(str "found", JVal.bool true)] (str "x") :=
  ⟨(injectElement_frame [(str "found", JVal.bool true)] (str "btn")).1 _ _ rfl,
   (injectElement_frame [(str "found", JVal.bool true)] (str "btn")).2.1 _ (by decide)⟩

/-- Claim C3: whenever the fence-stripped reply text is not valid JSON, the
find path prints exactly one line — the JSON error object whose message
wraps the underlying parse error — and exits with code 1; no FindResult is
returned, and the printed line contains no newline. -/
theorem find_malformed_reply_error
    (loads : List Char → Except (List Char) (List (List Char × JVal)))
    (jsonFlag : Bool) (raw desc e : List Char)
    (h : loads (stripFence (pyStrip raw)) = .error e) :
    mainFindRun loads jsonFlag raw desc =
      ⟨[dumps (JVal.obj (jsonFailObj
          (str "Failed to parse vision response as JSON: " ++ e)))], 1⟩ ∧
    '\n' ∉ dumps (JVal.obj (jsonFailObj
        (str "Failed to parse vision response as JSON: " ++ e))) := by
  constructor
  · rw [mainFindRun, find_element_decode, h]
    rfl
  · exact dumps_jsonFail_no_newline _

/-- Witness for the C3 theorem at a concrete malformed reply. -/
theorem find_malformed_reply_error_witness :
    mainFindRun (fun _ => .error (str "Expecting value: line 1 column 1 (char 0)"))
        false (str "nonsense") (str "btn") =
      ⟨[dumps (JVal.obj (jsonFailObj
          (str "Failed to parse vision response as JSON: " ++
            str "Expecting value: line 1 column 1 (char 0)")))], 1⟩ ∧
    '\n' ∉ dumps (JVal.obj (jsonFailObj
        (str "Failed to parse vision response as JSON: " ++
          str "Expecting value: line 1 column 1 (char 0)"))) :=
  find_malformed_reply_error _ false _ _ _ rfl

/-- Claim C4, counterexample: a find invocation with the json flag whose
parsed reply has found false completes without ever printing the
not-found line, so the claim quantified over every find invocation fails;
the json-mode output is the pretty-printed object alone. -/
theorem find_not_found_json_counterexample :
    lookupKey [(str "found", JVal.bool false)] (str "found") = some (JVal.bool false) ∧
    (str "Not found: btn") ∉
      (mainFindRun (fun _ => .ok [(str "found", JVal.bool false)])
        true (str "r") (str "btn")).lines :=
  ⟨rfl, by decide⟩

/-- Claim C4 (amended): for every find invocation without the json flag
whose parsed reply has found false (or no found field), the process prints
the line made of the text Not found: followed by the element description,
then the raw JSON line of the (element-injected) result, and exits with
code 0 — a not-found answer is a completed call, not an error exit. -/
theorem find_not_found_text_output
    (loads : List Char → Except (List Char) (List (List Char × JVal)))
    (raw desc : List Char) (result : List (List Char × JVal))
    (h : loads (stripFence (pyStrip raw)) = .ok result)
    (hf : lookupKey result (str "found") = some (JVal.bool false) ∨
          lookupKey result (str "found") = none) :
    mainFindRun loads false raw desc =
      ⟨[str "Not found: " ++ desc, dumps (JVal.obj (injectElement result desc))], 0⟩ := by
  rw [mainFindRun, find_element_decode, h]
  have hfound : lookupKey (injectElement result desc) (str "found") =
      lookupKey result (str "found") := by
    rw [injectElement]
    by_cases hk : hasKey result (str "element") = true
    · rw [if_pos hk]
    · rw [if_neg hk, lookupKey_append_ne _ _ _ _ (by decide)]
  have htruthy : truthy (dictGet (injectElement result desc) (str "found")
      (JVal.bool false)) = false := by
    rw [dictGet, hfound]
    rcases hf with hf | hf <;> simp [hf, truthy]
  simp [mainFind, htruthy]

/-- Witness for the amended C4 theorem at a concrete not-found reply. -/
theorem find_not_found_text_output_witness :
    mainFindRun (fun _ => .ok [(str "found", JVal.bool false)]) false (str "r") (str "btn") =
      ⟨[str "Not found: " ++ str "btn",
        dumps (JVal.obj (injectElement [(str "found", JVal.bool false)] (str "btn")))], 0⟩ :=
  find_not_found_text_output _ _ _ _ rfl (Or.inl rfl)

/-- Claim C5: media-type inference maps the jpg and jpeg extensions to
image/jpeg, gif to image/gif, webp to image/webp, and png or any
unrecognized extension to image/png. -/
theorem get_media_type_matches_spec (p : List Char) :
    get_media_type p = mediaTypeSpec p := by
  rw [get_media_type, mediaTypeSpec]
  generalize pyLower (pySuffix p) = e
  rcases eq_or_ne e (str ".png") with rfl | h5
  · decide
  rcases eq_or_ne e (str ".jpg") with rfl | h1
  · decide
  rcases eq_or_ne e (str ".jpeg") with rfl | h2
  · decide
  rcases eq_or_ne e (str ".gif") with rfl | h3
  · decide
  rcases eq_or_ne e (str ".webp") with rfl | h4
  · decide
  simp [media_types_table, lookupMedia, h1, h2, h3, h4,
    eq_false (Ne.symm h1), eq_false (Ne.symm h2), eq_false (Ne.symm h3),
    eq_false (Ne.symm h4), eq_false (Ne.symm h5)]

/-- Claim C6: with an image path that does not exist, main's validation
phase stops with exit code 1 and the single JSON error line naming the
path, before any mode handling (and so before any network activity); at
the path the claim displays, the emitted line is exactly the displayed
object. -/
theorem missing_image_early_error :
    (∀ (imagePath : List Char) (findArg : Option (List Char)) (describeFlag : Bool),
        mainValidate false imagePath findArg describeFlag =
          .earlyExit
            [dumps (JVal.obj
              [(str "success", JVal.bool false),
               (str "error", JVal.str (str "Image file not found: " ++ imagePath))])] 1) ∧
    mainValidate false (str "/nonexistent.png") (some (str "x")) false =
      .earlyExit
        [str "\x7b\"success\": false, \"error\": \"Image file not found: /nonexistent.png\"\x7d"]
        1 := by
  constructor
  · intro imagePath findArg describeFlag
    rfl
  · rfl

/-- Claim C8: a successful describe invocation with the json flag prints
the success object wrapping the trimmed remote text reply as its
description and null as its error; at a concrete reply the printed text is
exactly the pretty-printed object. -/
theorem describe_json_wraps_description :
    (∀ raw : List Char,
        mainDescribe true raw =
          ⟨[dumpsIndent (JVal.obj
              [(str "success", JVal.bool true),
               (str "description", JVal.str (pyStrip raw)),
               (str "error", JVal.null)])], 0⟩) ∧
    mainDescribe true (str "  A Firefox window is open.\n") =
      ⟨[str "\x7b\n  \"success\": true,\n  \"description\": \"A Firefox window is open.\",\n  \"error\": null\n\x7d"],
        0⟩ := by
  constructor
  · intro raw
    rfl
  · rfl
